import Mathlib

/-!
Verification development for the predictedConditions loan-underwriting agent.

The Python modules under src/src/agent are shallowly embedded in Lean:
pure functions become Lean functions over explicit data, Python dicts whose
keys the code reads or writes become structures (remaining, never-touched
properties are kept as inert key/value lists), Python float arithmetic is
idealised as exact rational (or, where square roots occur, real) arithmetic,
and every external service call (OpenAI embeddings, the Anthropic messages
endpoint, Neo4j queries) is abstracted as an explicit oracle parameter whose
result is passed in, with `Option`/`Except` marking a raised exception.
Console printing (`print`, `verbose` output) has no observable effect on the
returned data and is dropped.
-/

namespace PredictedConditions

/-- Python `str.lower()` restricted to its ASCII behaviour (every string the
claims exercise is ASCII), computed on the character list so that the kernel
can evaluate it. -/
def pyLower (s : String) : String := ⟨s.data.map Char.toLower⟩

/-- Python `str.strip()`: drop whitespace at both ends, computed on the
character list so that the kernel can evaluate it. -/
def pyStrip (s : String) : String :=
  ⟨((s.data.dropWhile Char.isWhitespace).reverse.dropWhile
      Char.isWhitespace).reverse⟩

/-- Check that `pat` occurs at the very front of `l`. -/
def matchesAt : List Char → List Char → Bool
  | [], _ => true
  | _ :: _, [] => false
  | a :: as, b :: bs => a == b && matchesAt as bs

/-- Check that `pat` occurs contiguously somewhere in `l`. -/
def containsSeq (pat : List Char) : List Char → Bool
  | [] => pat.isEmpty
  | b :: bs => matchesAt pat (b :: bs) || containsSeq pat bs

/-- Python substring containment `needle in haystack` on strings. -/
def substrB (needle haystack : String) : Bool :=
  containsSeq needle.data haystack.data

/-- Python dict indexing assignment `d[k] = v` on an association list kept
in insertion order: replace in place when the key exists, append
otherwise. -/
def dictInsert (c : List (String × α)) (k : String) (v : α) :
    List (String × α) :=
  if c.any (fun p => p.1 == k) then
    c.map (fun p => if p.1 == k then (k, v) else p)
  else c ++ [(k, v)]

/-- Python dict lookup `d.get(k)` on an association list. -/
def dictFind (c : List (String × α)) (k : String) : Option α :=
  (c.find? (fun p => p.1 == k)).map (·.2)

/-! ## Step 6/7: `confidence_calculator.py`, `priority_evaluator.py`, `deficiency_scorer.py` -/

namespace Step67

/-- One entry of the `deficiencies` list of a detection result; the four
fields the scorers read via `deficiency.get(key, "")`, with a missing key
represented by the empty string (the `get` default). -/
structure SubDeficiency where
  requirement : String
  issue : String
  field_checked : String
  evidence : String
deriving DecidableEq, Inhabited

/-- A single detection result dict from step 4/5, restricted to the keys the
step 6/7 scorers read (again with `get` defaults for missing keys). -/
structure DeficiencyRecord where
  condition_id : String
  status : String
  related_documents : String
  actionable_instruction : String
  reasoning : String
  deficiencies : List SubDeficiency
  checked_fields : List String
deriving DecidableEq, Inhabited

/-- The `config["evidence_type_keywords"]` sub-dict. -/
structure EvidenceTypeKeywords where
  missing : List String
  wrong : List String
deriving DecidableEq, Inhabited

/-- The `config["evidence_type_scores"]` sub-dict. -/
structure EvidenceTypeScores where
  empty_array : ℚ
  missing_required : ℚ
  wrong_value : ℚ
  unclear : ℚ
deriving DecidableEq, Inhabited

/-- The `config["priority_score_weights"]` sub-dict. -/
structure PriorityWeights where
  severity : ℚ
  impact : ℚ
  urgency : ℚ
  complexity : ℚ
deriving DecidableEq, Inhabited

/-- The scoring configuration, restricted to the keys the embedded functions
read. -/
structure ScoringConfig where
  evidence_type_keywords : EvidenceTypeKeywords
  evidence_type_scores : EvidenceTypeScores
  priority_score_weights : PriorityWeights
deriving DecidableEq, Inhabited

/-- Embedding of `confidence_calculator.score_evidence_type`
(confidence_calculator.py lines 149-193), including the literal membership
test on line 175, which checks each `wrong` keyword against the `wrong`
keyword list itself rather than against the combined text. -/
def score_evidence_type (deficiency_result : DeficiencyRecord)
    (config : ScoringConfig) : ℚ :=
  if deficiency_result.deficiencies.isEmpty then 3/10
  else
    let keywords_missing := config.evidence_type_keywords.missing
    let keywords_wrong := config.evidence_type_keywords.wrong
    let scores_map := config.evidence_type_scores
    let perSub := deficiency_result.deficiencies.map (fun deficiency =>
      let combined_text :=
        pyLower deficiency.issue ++ " " ++ pyLower deficiency.evidence
      let is_missing := keywords_missing.any (fun k => substrB k combined_text)
      let is_wrong := keywords_wrong.any (fun k => keywords_wrong.contains k)
      if is_missing && substrB "[]" combined_text then scores_map.empty_array
      else if is_missing then scores_map.missing_required
      else if is_wrong then scores_map.wrong_value
      else scores_map.unclear)
    let reasoning_lower := pyLower deficiency_result.reasoning
    let evidence_scores :=
      if keywords_missing.any (fun k => substrB k reasoning_lower)
      then perSub ++ [scores_map.missing_required]
      else perSub
    if evidence_scores.isEmpty then 1/2
    else evidence_scores.sum / (evidence_scores.length : ℚ)

/-- The parsed priority dimensions returned by `parse_priority_response`. -/
structure PriorityDims where
  severity : ℚ
  impact : ℚ
  urgency : ℚ
  complexity : ℚ
  explanation : String
deriving DecidableEq, Inhabited

/-- The dict returned by `evaluate_priority`. -/
structure PriorityResult where
  severity : ℚ
  impact : ℚ
  urgency : ℚ
  complexity : ℚ
  explanation : String
  overall_priority : ℚ
deriving DecidableEq, Inhabited

/-- Embedding of `priority_evaluator.calculate_overall_priority`
(priority_evaluator.py lines 216-230): weighted sum with the complexity
dimension inverted. -/
def calculate_overall_priority (dimensions : PriorityDims)
    (weights : PriorityWeights) : ℚ :=
  dimensions.severity * weights.severity +
  dimensions.impact * weights.impact +
  dimensions.urgency * weights.urgency +
  (1 - dimensions.complexity) * weights.complexity

/-- Python `round(x, 3)` idealised over the rationals (tie behaviour of the
float builtin is irrelevant to the claims). -/
def roundTo3 (q : ℚ) : ℚ := (round (q * 1000) : ℤ) / 1000

/-- Embedding of `priority_evaluator.evaluate_priority`
(priority_evaluator.py lines 17-85). The whole `try` body, that is the
`client.messages.create` call followed by `parse_priority_response`, is
abstracted as `callOutcome`: `.ok dims` when a response arrived and parsed
into dimension values, `.error e` when anything in the call raised, where `e`
is `str(e)` of the exception. The `except` branch returns the fixed neutral
dict. -/
def evaluate_priority (callOutcome : Except String PriorityDims)
    (config : ScoringConfig) : PriorityResult :=
  match callOutcome with
  | .ok priority_dims =>
    { severity := priority_dims.severity
      impact := priority_dims.impact
      urgency := priority_dims.urgency
      complexity := priority_dims.complexity
      explanation := priority_dims.explanation
      overall_priority :=
        roundTo3 (calculate_overall_priority priority_dims
          config.priority_score_weights) }
  | .error e =>
    { severity := 1/2
      impact := 1/2
      urgency := 1/2
      complexity := 1/2
      explanation := "Error evaluating priority: " ++ e
      overall_priority := 1/2 }

/-- The sentinel phrases for universal conditions
(deficiency_scorer.py line 35). -/
def universal_markers : List String :=
  ["all docs pass through", "all documents", "all docs", "universal"]

/-- The fixed keyword to document-type table of
`extract_relevant_documents` (deficiency_scorer.py lines 41-52), in source
insertion order. -/
def doc_type_mapping : List (String × String) :=
  [("bank statement", "Business Bank Statement, Personal Bank Statement"),
   ("tax return", "1040 Personal Tax Return, 1120 Corporate Tax Return, Form 1120S Scorp, Form 1065"),
   ("paystub", "Paystub, Pay Stub"),
   ("w-2", "W-2 Form, W2"),
   ("cpa letter", "CPA Letter for Self-Employment, CPA Letter for Use of Business Funds"),
   ("profit and loss", "Profit and Loss Statement, P&L Statement"),
   ("balance sheet", "Balance Sheet"),
   ("credit report", "Credit Report"),
   ("appraisal", "Appraisal Report"),
   ("title", "Title Report, Preliminary Title")]

/-- The common document-type words scanned for in the non-universal branch
(deficiency_scorer.py lines 78-81). -/
def instruction_doc_types : List String :=
  ["tax", "return", "letter", "cpa", "k-1", "k1", "schedule", "form",
   "statement", "report", "agreement", "certificate", "paystub", "w-2", "w2",
   "1099", "1040", "1065", "1120", "articles", "operating", "partnership",
   "incorporation", "organization", "bank", "credit", "proof", "verification"]

/-- Embedding of `deficiency_scorer.extract_relevant_documents`
(deficiency_scorer.py lines 19-98). The `re.findall` of capitalised tokens on
line 74 is abstracted as the `regexTokens` oracle; the claims under
verification only exercise the universal-marker branch, which never consults
it. -/
def extract_relevant_documents (regexTokens : String → List String)
    (actionable_instruction related_documents : String) : String :=
  if actionable_instruction.isEmpty || related_documents.isEmpty then
    related_documents
  else
    let related_lower := pyStrip (pyLower related_documents)
    if universal_markers.contains related_lower then
      let instruction_lower := pyLower actionable_instruction
      match doc_type_mapping.find?
          (fun p => substrB p.1 instruction_lower) with
      | some p => p.2
      | none => "See actionable instruction for required documents"
    else
      let docs_list := (related_documents.splitOn ",").map pyStrip
      let instruction_lower := pyLower actionable_instruction
      let keywords :=
        (regexTokens actionable_instruction).map pyLower ++
        instruction_doc_types.filter (fun t => substrB t instruction_lower)
      let relevant_docs := docs_list.filter
        (fun doc => keywords.any (fun k => substrB k (pyLower doc)))
      if relevant_docs.isEmpty then related_documents
      else String.intercalate ", " relevant_docs

end Step67

/-! ## Step 2: `hard_filter.py` -/

namespace Step2

/-- A Neo4j node as seen by the Step 2 queries: its `id` property when
present (node ids in this graph are strings) and its remaining properties as
an inert key/value list. -/
structure Node where
  id : Option String
  props : List (String × String)
deriving DecidableEq, Inhabited

/-- A requirement dict as built by the Step 2 retrieval functions:
`dict(req_node)` plus the annotations the code itself adds, namely
`_element_id` and, on the compartment path only, `_programs`. -/
structure Req where
  id : Option String
  props : List (String × String)
  element_id : Option String
  programs : Option (List String)
deriving DecidableEq, Inhabited

/-- The identity used throughout Step 2 to compare requirements:
`req.get('id') or str(req)`. A present truthy `id` is the key; otherwise the
string form of the whole dict is, which the embedding represents by the
record itself (equal dicts print equally). -/
inductive ReqKey where
  | idKey (s : String)
  | reprKey (r : Req)
deriving DecidableEq

/-- The key function `req.get('id') or str(req)` with Python truthiness
(a missing or empty `id` falls through to `str(req)`). -/
def reqKey (r : Req) : ReqKey :=
  match r.id with
  | some s => if s.isEmpty then .reprKey r else .idKey s
  | none => .reprKey r

/-- One row returned by the Path A Cypher query
(hard_filter.py lines 52-78): the requirement node, its Neo4j element id
and, depending on the query used, either the single `program_name` (when a
loan program filter is given) or the collected `programs` list. -/
structure CompartmentRow where
  node : Node
  elemId : String
  programName : Option String
  programs : List String
deriving DecidableEq, Inhabited

/-- Embedding of `hard_filter.get_requirements_by_compartment`
(hard_filter.py lines 36-122) applied to the rows the query returned: every
row becomes `dict(req_node)` with `_element_id` and `_programs` added, the
latter always set (`[program_name] if program_name else []` on the
loan-program path, the None-filtered `programs` list otherwise). The
program-count console summary has no effect on the result and is dropped. -/
def get_requirements_by_compartment (loan_program : Option String)
    (rows : List CompartmentRow) : List Req :=
  rows.map (fun row =>
    { id := row.node.id
      props := row.node.props
      element_id := some row.elemId
      programs := some (match loan_program with
        | some _ =>
          match row.programName with
          | some p => if p.isEmpty then [] else [p]
          | none => []
        | none => row.programs.filter (fun p => !p.isEmpty)) })

/-- One row returned by the per-entity semantic query
(hard_filter.py lines 239-266). -/
structure SemanticRow where
  node : Node
  elemId : String
deriving DecidableEq, Inhabited

/-- The requirement dict built by `_query_requirements_for_entity`
(hard_filter.py lines 262-266): `dict(req_node)` plus `_element_id`; no
`_programs` annotation is added on this path. -/
def mkSemanticReq (row : SemanticRow) : Req :=
  { id := row.node.id
    props := row.node.props
    element_id := some row.elemId
    programs := none }

/-- One iteration of the collation loop of
`get_requirements_by_semantic_search` (hard_filter.py lines 357-362): append
the arriving requirement unless its key is in `seen_req_ids`. -/
def collateStep (acc : List Req × List ReqKey) (r : Req) :
    List Req × List ReqKey :=
  if acc.2.contains (reqKey r) then acc
  else (acc.1 ++ [r], acc.2 ++ [reqKey r])

/-- The collation loop of `get_requirements_by_semantic_search`
(hard_filter.py lines 352-384): requirements arriving from the per-entity
queries are appended in arrival order, skipping any whose key was already
seen. The arrival sequence (entity order, or completion order of the
parallel futures) is taken as the input list. -/
def collate_semantic (reqs : List Req) : List Req :=
  (reqs.foldl collateStep ([], [])).1

/-- Embedding of `hard_filter.get_requirements_by_semantic_search`
(hard_filter.py lines 273-388) applied to the rows its per-entity queries
returned, in arrival order. -/
def get_requirements_by_semantic_search (rows : List SemanticRow) :
    List Req :=
  collate_semantic (rows.map mkSemanticReq)

/-- The combination step of `hard_filter` (hard_filter.py lines 511-526):
keep the Path B requirements whose key also occurs among the Path A keys,
and fall back to the full Path A list when nothing survives. -/
def hardFilterCombine (reqs_by_compartment reqs_by_entities : List Req) :
    List Req :=
  let compartment_ids := reqs_by_compartment.map reqKey
  let final_requirements :=
    reqs_by_entities.filter (fun r => compartment_ids.contains (reqKey r))
  if final_requirements.isEmpty then reqs_by_compartment
  else final_requirements

/-- Embedding of `hard_filter.hard_filter` (hard_filter.py lines 391-536):
Path A from the compartment query rows, Path B from the semantic query rows,
combined by intersection-with-fallback. Console output is dropped. -/
def hard_filter (loan_program : Option String)
    (compartment_rows : List CompartmentRow)
    (semantic_rows : List SemanticRow) : List Req :=
  hardFilterCombine
    (get_requirements_by_compartment loan_program compartment_rows)
    (get_requirements_by_semantic_search semantic_rows)

/-- The module-level `_embedding_cache` dict: an association list in
insertion order. -/
abbrev EmbCache := List (String × List ℚ)

/-- The cache write performed on hard_filter.py lines 157-160 and again on
lines 209-211: when the cache holds more than 1000 entries it is cleared
whole, then the new entry is stored. -/
def cacheStore (cache : EmbCache) (cache_key : String) (embedding : List ℚ) :
    EmbCache :=
  let cache := if cache.length > 1000 then [] else cache
  dictInsert cache cache_key embedding

/-- Embedding of `hard_filter.get_entity_embedding`
(hard_filter.py lines 125-162). The OpenAI embeddings call is the `api`
oracle; `none` means the call raised, in which case the exception propagates
(`none` result) and the cache is left untouched. State is passed explicitly:
the function returns the produced embedding together with the new cache. -/
def get_entity_embedding (api : String → Option (List ℚ)) (cache : EmbCache)
    (entity_text : String) (use_cache : Bool) (model : String) :
    Option (List ℚ) × EmbCache :=
  let cache_key := model ++ ":" ++ entity_text
  match if use_cache then dictFind cache cache_key else none with
  | some v => (some v, cache)
  | none =>
    match api entity_text with
    | none => (none, cache)
    | some embedding =>
      (some embedding,
       if use_cache then cacheStore cache cache_key embedding else cache)

/-- Embedding of `hard_filter.get_entity_embeddings_batch`
(hard_filter.py lines 165-221). The batch embeddings call is the `batchApi`
oracle (`none` = the call raised, taking the fallback path of individual
calls, whose own failures are caught and skipped); response vectors are
paired with the uncached entities positionally. Returns the entity-to-vector
dict together with the new cache. -/
def get_entity_embeddings_batch (batchApi : List String → Option (List (List ℚ)))
    (api : String → Option (List ℚ)) (cache : EmbCache)
    (entities : List String) (model : String) :
    List (String × List ℚ) × EmbCache :=
  if entities.isEmpty then ([], cache)
  else
    let split := entities.foldl
      (fun (acc : List (String × List ℚ) × List String) entity =>
        match dictFind cache (model ++ ":" ++ entity) with
        | some v => (dictInsert acc.1 entity v, acc.2)
        | none => (acc.1, acc.2 ++ [entity]))
      ([], [])
    let cached := split.1
    let uncached_entities := split.2
    if uncached_entities.isEmpty then (cached, cache)
    else
      match batchApi uncached_entities with
      | some vectors =>
        (uncached_entities.zip vectors).foldl
          (fun (acc : List (String × List ℚ) × EmbCache) p =>
            (dictInsert acc.1 p.1 p.2,
             cacheStore acc.2 (model ++ ":" ++ p.1) p.2))
          (cached, cache)
      | none =>
        uncached_entities.foldl
          (fun (acc : List (String × List ℚ) × EmbCache) entity =>
            match get_entity_embedding api acc.2 entity true model with
            | (some embedding, c2) => (dictInsert acc.1 entity embedding, c2)
            | (none, c2) => (acc.1, c2))
          (cached, cache)

/-- A cache-touching call, for stating the boundedness invariant across any
sequence of calls: a single `get_entity_embedding` or a batch
`get_entity_embeddings_batch`, each with its own oracles. -/
inductive CacheOp where
  | single (api : String → Option (List ℚ)) (entity_text : String)
      (use_cache : Bool) (model : String)
  | batch (batchApi : List String → Option (List (List ℚ)))
      (api : String → Option (List ℚ)) (entities : List String)
      (model : String)

/-- The cache after running one call. -/
def applyCacheOp (cache : EmbCache) : CacheOp → EmbCache
  | .single api entity_text use_cache model =>
    (get_entity_embedding api cache entity_text use_cache model).2
  | .batch batchApi api entities model =>
    (get_entity_embeddings_batch batchApi api cache entities model).2

/-- The cache after running a sequence of calls. -/
def runCacheOps (cache : EmbCache) (ops : List CacheOp) : EmbCache :=
  ops.foldl applyCacheOp cache

end Step2

/-! ## Step 3: `rank_by_similarity.py`

Float arithmetic (numpy float64) is idealised as exact real arithmetic, so
the definitions of this section are noncomputable; the claims about them are
inequalities and structural identities that never require evaluating a
square root. -/

namespace Step3

/-- The dict of connected nodes assembled by `get_connected_nodes`
(rank_by_similarity.py lines 87-112); each node is its property list. -/
structure ConnectedNodes where
  conditions : List (List (String × String))
  dependencies : List (List (String × String))
  related_requirements : List (List (String × String))
  other_nodes : List (List (String × String))
deriving DecidableEq, Inhabited

/-- The empty connected-nodes dict, as built on
rank_by_similarity.py lines 87-92 and again in the error handler on
lines 342-347. -/
def emptyConnectedNodes : ConnectedNodes :=
  { conditions := [], dependencies := [], related_requirements := []
    other_nodes := [] }

/-- A requirement dict as Step 3 sees it: the `embedding` property the
similarity computation reads, the `similarity_score` and `connected_nodes`
entries the ranking itself writes, and the remaining string properties
(`_element_id`, `id`, `name`, ...) as a key/value list. -/
structure Req where
  embedding : Option (List ℝ)
  similarity_score : Option ℝ
  connected_nodes : Option ConnectedNodes
  props : List (String × String)

/-- Python `d.get(k) or ...` chaining: a lookup yielding a missing or empty
string falls through. -/
def getTruthy (props : List (String × String)) (k : String) : Option String :=
  match dictFind props k with
  | some s => if s.isEmpty then none else some s
  | none => none

/-- The id chain of rank_by_similarity.py lines 315-319:
`_element_id or id or _id or elementId or name`. -/
def reqRefId (r : Req) : Option String :=
  (getTruthy r.props "_element_id") <|> (getTruthy r.props "id") <|>
  (getTruthy r.props "_id") <|> (getTruthy r.props "elementId") <|>
  (getTruthy r.props "name")

/-- Embedding of `rank_by_similarity.cosine_similarity`
(rank_by_similarity.py lines 117-142): dot product over the product of the
Euclidean norms, 0.0 when either norm is zero, clamped into [0, 1]. -/
noncomputable def cosine_similarity (vec1 vec2 : List ℝ) : ℝ :=
  let dot_product := (List.zipWith (· * ·) vec1 vec2).sum
  let norm1 := Real.sqrt ((vec1.map (fun x => x * x)).sum)
  let norm2 := Real.sqrt ((vec2.map (fun x => x * x)).sum)
  if norm1 = 0 ∨ norm2 = 0 then 0
  else max 0 (min 1 (dot_product / (norm1 * norm2)))

/-- Python `max(similarities) if similarities else 0.0`
(rank_by_similarity.py line 177 and line 182). -/
noncomputable def pyMaxOrZero (similarities : List ℝ) : ℝ :=
  match similarities with
  | [] => 0
  | x :: xs => xs.foldl max x

/-- Python `sum(similarities) / len(similarities) if similarities else 0.0`
(rank_by_similarity.py line 180). -/
noncomputable def pyAvgOrZero (similarities : List ℝ) : ℝ :=
  if similarities.isEmpty then 0
  else similarities.sum / (similarities.length : ℝ)

/-- Embedding of `rank_by_similarity.calculate_requirement_similarity`
(rank_by_similarity.py lines 145-182). A missing `embedding` property, or an
empty one (Python truthiness of `not req_embedding`), scores 0.0; otherwise
the per-entity cosine similarities are combined by the `max` reducer, the
`avg` reducer, or (for any other method string) `max` again. -/
noncomputable def calculate_requirement_similarity (requirement : Req)
    (entity_embeddings : List (List ℝ)) (method : String) : ℝ :=
  match requirement.embedding with
  | none => 0
  | some req_embedding =>
    if req_embedding.isEmpty then 0
    else
      let similarities :=
        entity_embeddings.map (fun e => cosine_similarity req_embedding e)
      if method = "max" then pyMaxOrZero similarities
      else if method = "avg" then pyAvgOrZero similarities
      else pyMaxOrZero similarities

/-- The per-requirement enrichment of rank_by_similarity.py lines 313-347:
fetch the connected nodes for the resolved requirement id via the Neo4j
oracle `getConn` (`none` = the query raised, handled by storing four empty
lists) and store them on the record. -/
noncomputable def enrichConnected
    (getConn : Option String → Option ConnectedNodes) (r : Req) : Req :=
  match getConn (reqRefId r) with
  | some connected => { r with connected_nodes := some connected }
  | none => { r with connected_nodes := some emptyConnectedNodes }

/-- The sort key of rank_by_similarity.py line 282:
`x.get('similarity_score', 0.0)`. -/
noncomputable def sortKey (r : Req) : ℝ := r.similarity_score.getD 0

/-- The score assignment of rank_by_similarity.py lines 271-277 for one
record: store the computed similarity under `similarity_score`. -/
noncomputable def scoreOne (entity_embeddings : List (List ℝ))
    (method : String) (req : Req) : Req :=
  { req with similarity_score := some (calculate_requirement_similarity req entity_embeddings method) }

/-- The score assignment loop of rank_by_similarity.py lines 271-277. -/
noncomputable def scoreRequirements (entity_embeddings : List (List ℝ))
    (method : String) (requirements : List Req) : List Req :=
  requirements.map (scoreOne entity_embeddings method)

/-- The sort of rank_by_similarity.py lines 280-284:
`sorted(..., key=..., reverse=True)` is the stable descending merge sort. -/
noncomputable def sortByScoreDesc (l : List Req) : List Req :=
  l.mergeSort (fun a b => decide (sortKey b ≤ sortKey a))

/-- The truncation of rank_by_similarity.py lines 287-288: `if top_n:` is
false for both `None` and `0`, in which case the list passes through. -/
def truncateTopN (top_n : Option Nat) (l : List Req) : List Req :=
  match top_n with
  | some n => if n = 0 then l else l.take n
  | none => l

/-- Embedding of `rank_by_similarity.rank_requirements_by_similarity`
(rank_by_similarity.py lines 185-356). The per-entity OpenAI call is the
`embed` oracle (`none` = the call raised; that entity is skipped); `getConn`
is the Neo4j oracle for the optional enrichment. `sorted(..., reverse=True)`
is the stable descending merge sort; `top_n` is an optional int, with
`if top_n:` false for both `None` and `0`. -/
noncomputable def rank_requirements_by_similarity
    (embed : String → Option (List ℝ))
    (getConn : Option String → Option ConnectedNodes)
    (requirements : List Req) (entities : List String)
    (top_n : Option Nat) (method : String)
    (include_connected_nodes : Bool) : List Req :=
  if requirements.isEmpty then []
  else
    let entity_embeddings := entities.filterMap embed
    if entity_embeddings.isEmpty then requirements
    else
      let ranked := truncateTopN top_n (sortByScoreDesc
        (scoreRequirements entity_embeddings method requirements))
      if include_connected_nodes then
        ranked.map (enrichConnected getConn)
      else ranked

end Step3

/-! ## Concrete instances used by the evaluation theorems -/

/-- A scoring config with non-empty `missing` and `wrong` keyword sets and
pairwise distinct evidence-type scores (values as in the shipped
`scoring_config.json` shape). -/
def c2Config : Step67.ScoringConfig :=
  { evidence_type_keywords := { missing := ["missing"], wrong := ["invalid"] }
    evidence_type_scores :=
      { empty_array := 1, missing_required := 9/10, wrong_value := 7/10
        unclear := 1/2 }
    priority_score_weights :=
      { severity := 2/5, impact := 3/10, urgency := 1/5, complexity := 1/10 } }

/-- A deficiency record whose single sub-record mentions no keyword from
either keyword set of `c2Config` (and no literal empty-array marker). -/
def c2Record : Step67.DeficiencyRecord :=
  { condition_id := "Ownership percentage check"
    status := "deficient"
    related_documents := "1120 Corporate Tax Return"
    actionable_instruction := ""
    reasoning := "The recorded value does not match the filed figure."
    deficiencies :=
      [{ requirement := "Percentage owned must equal the filed value"
         issue := "value differs from expected"
         field_checked := "scheduleGPartII"
         evidence := "field contains 2020" }]
    checked_fields := ["scheduleGPartII"] }

/-- The default priority weights of `scoring_config.json`
(severity 0.4, impact 0.3, urgency 0.2, complexity 0.1). -/
def c5Weights : Step67.PriorityWeights :=
  { severity := 2/5, impact := 3/10, urgency := 1/5, complexity := 1/10 }

/-- A Path A requirement record with id `r1`. -/
def c1ReqA : Step2.Req :=
  { id := some "r1", props := [("compartment", "Loan & Property Information")]
    element_id := some "4:abc:1", programs := some ["Flex Supreme"] }

/-- A Path B requirement record with the same id `r1`. -/
def c1ReqB : Step2.Req :=
  { id := some "r1", props := [("compartment", "Loan & Property Information")]
    element_id := some "4:abc:1", programs := none }

/-- A Path B requirement record with unrelated id `r2`. -/
def c1ReqC : Step2.Req :=
  { id := some "r2", props := [], element_id := some "4:abc:2"
    programs := none }

/-- A Neo4j node with id `r1`. -/
def c10Node : Step2.Node :=
  { id := some "r1", props := [("compartment", "Loan & Property Information")] }

/-- A Path A query row for `c10Node`. -/
def c10RowA : Step2.CompartmentRow :=
  { node := c10Node, elemId := "4:abc:1", programName := none
    programs := ["Flex Supreme"] }

/-- A Path B query row for `c10Node` (intersecting case). -/
def c10RowB : Step2.SemanticRow :=
  { node := c10Node, elemId := "4:abc:1" }

/-- A Path B query row for an unrelated node (disjoint case). -/
def c10RowC : Step2.SemanticRow :=
  { node := { id := some "r9", props := [] }, elemId := "4:abc:9" }

/-- A Step 3 requirement record with no stored embedding. -/
def c4Req : Step3.Req :=
  { embedding := none, similarity_score := none, connected_nodes := none
    props := [("name", "Appraisal Report Required")] }

/-- A Step 3 requirement record used by the empty-entities witness. -/
def c9Req : Step3.Req :=
  { embedding := none, similarity_score := none, connected_nodes := none
    props := [("id", "req_1")] }

/-! ## Theorems -/

/-! ### String-scan helper lemmas -/

theorem matchesAt_append (as bs : List Char) :
    matchesAt as (as ++ bs) = true := by
  induction as with
  | nil => rfl
  | cons a as ih => simp [matchesAt, ih]

theorem containsSeq_append_left (as bs : List Char) :
    containsSeq as (as ++ bs) = true := by
  cases as with
  | nil =>
    cases bs with
    | nil => rfl
    | cons b bs => simp [containsSeq, matchesAt]
  | cons a as =>
    simp only [List.cons_append, containsSeq]
    have h := matchesAt_append (a :: as) bs
    simp only [List.cons_append] at h
    simp [h]

/-! ### C2: `score_evidence_type` keyword classification -/

/-- C2. The claim says a sub-record text containing a keyword from neither
set scores `unclear`; evaluating the embedded `score_evidence_type` at a
record whose text mentions no keyword from either set of `c2Config` yields
the `wrong_value` score instead (and that score differs from `unclear`),
because line 175 of confidence_calculator.py tests the `wrong` keywords
against the keyword list itself rather than against the text. -/
theorem score_evidence_type_unclassified_text_scores_wrong_value :
    Step67.score_evidence_type c2Record c2Config =
      c2Config.evidence_type_scores.wrong_value ∧
    c2Config.evidence_type_scores.wrong_value ≠
      c2Config.evidence_type_scores.unclear := by
  have h1 : substrB "missing"
      (pyLower "value differs from expected" ++ " " ++
        pyLower "field contains 2020") = false := by decide
  have h2 : substrB "missing"
      (pyLower "The recorded value does not match the filed figure.")
      = false := by decide
  constructor
  · simp only [Step67.score_evidence_type, c2Record, c2Config]
    norm_num [h1, h2]
  · simp only [c2Config]
    norm_num

/-! ### C3: `evaluate_priority` neutral default on call failure -/

/-- C3. When the text-generation call inside `evaluate_priority` raises, the
function returns (rather than raising) the neutral dict: severity, impact,
urgency and complexity all 0.5, an explanation containing the error marker,
and `overall_priority` exactly 0.5, for every configured weight set. -/
theorem evaluate_priority_error_neutral (e : String)
    (config : Step67.ScoringConfig) :
    (Step67.evaluate_priority (Except.error e) config).severity = 1/2 ∧
    (Step67.evaluate_priority (Except.error e) config).impact = 1/2 ∧
    (Step67.evaluate_priority (Except.error e) config).urgency = 1/2 ∧
    (Step67.evaluate_priority (Except.error e) config).complexity = 1/2 ∧
    substrB "Error evaluating priority"
      (Step67.evaluate_priority (Except.error e) config).explanation = true ∧
    (Step67.evaluate_priority (Except.error e) config).overall_priority
      = 1/2 := by
  refine ⟨rfl, rfl, rfl, rfl, ?_, rfl⟩
  show substrB "Error evaluating priority"
    ("Error evaluating priority: " ++ e) = true
  unfold substrB
  rw [String.data_append]
  have h : ("Error evaluating priority: ").data
      = ("Error evaluating priority").data ++ (": ").data := by decide
  rw [h, List.append_assoc]
  exact containsSeq_append_left _ _

/-! ### C5: `calculate_overall_priority` strictly decreasing in complexity -/

/-- C5. With a positive complexity weight and severity, impact, urgency
fixed, raising the complexity dimension strictly lowers the overall
priority, because complexity contributes as `(1 - complexity) * weight`. -/
theorem calculate_overall_priority_complexity_strict_anti
    (s i u c₁ c₂ : ℚ) (ex : String) (w : Step67.PriorityWeights)
    (hw : 0 < w.complexity) (hc : c₁ < c₂) :
    Step67.calculate_overall_priority ⟨s, i, u, c₂, ex⟩ w <
    Step67.calculate_overall_priority ⟨s, i, u, c₁, ex⟩ w := by
  have h1 : (1 - c₂) * w.complexity < (1 - c₁) * w.complexity :=
    mul_lt_mul_of_pos_right (by linarith) hw
  simp only [Step67.calculate_overall_priority]
  linarith

/-- Witness for C5 at the default weights: complexity 3/4 scores strictly
below complexity 1/4, all else equal. -/
theorem calculate_overall_priority_complexity_strict_anti_witness :
    Step67.calculate_overall_priority ⟨1/2, 1/2, 1/2, 3/4, ""⟩ c5Weights <
    Step67.calculate_overall_priority ⟨1/2, 1/2, 1/2, 1/4, ""⟩ c5Weights :=
  calculate_overall_priority_complexity_strict_anti
    (1/2) (1/2) (1/2) (1/4) (3/4) "" c5Weights
    (by norm_num [c5Weights]) (by norm_num)

/-! ### C6: `extract_relevant_documents` universal-marker branch -/

/-- C6. For a non-empty instruction and a `related_documents` value whose
lowercased, stripped form is one of the universal sentinel phrases: if the
lowercased instruction contains "bank statement" the result is exactly
"Business Bank Statement, Personal Bank Statement", and if the instruction
matches no entry of the fixed keyword table the result is the generic
marker. -/
theorem extract_relevant_documents_universal_mapping
    (tok : String → List String) (instr related : String)
    (h1 : instr.isEmpty = false)
    (h2 : Step67.universal_markers.contains (pyStrip (pyLower related))
      = true) :
    (substrB "bank statement" (pyLower instr) = true →
      Step67.extract_relevant_documents tok instr related =
        "Business Bank Statement, Personal Bank Statement") ∧
    ((∀ p ∈ Step67.doc_type_mapping, substrB p.1 (pyLower instr) = false) →
      Step67.extract_relevant_documents tok instr related =
        "See actionable instruction for required documents") := by
  have hrel : related.isEmpty = false := by
    cases hr : related.isEmpty
    · rfl
    · exfalso
      have he : related = "" := (String.isEmpty_iff related).mp hr
      rw [he] at h2
      have hv : Step67.universal_markers.contains (pyStrip (pyLower ""))
          = false := by decide
      rw [hv] at h2
      exact Bool.false_ne_true h2
  unfold Step67.extract_relevant_documents
  rw [h1, hrel]
  simp only [Bool.or_self, Bool.false_eq_true, if_false, h2, if_true]
  constructor
  · intro hb
    simp only [Step67.doc_type_mapping]
    rw [List.find?_cons_of_pos _ (by simpa using hb)]
  · intro hn
    rw [List.find?_eq_none.mpr (fun p hp => by simp [hn p hp])]

/-- Witness for C6: "Upload bank statements" against "All Docs" maps to the
bank-statement pair, and "Provide signed documents" against "All Docs"
falls through to the generic marker. -/
theorem extract_relevant_documents_universal_mapping_witness :
    Step67.extract_relevant_documents (fun _ => [])
      "Upload bank statements" "All Docs" =
      "Business Bank Statement, Personal Bank Statement" ∧
    Step67.extract_relevant_documents (fun _ => [])
      "Provide signed documents" "All Docs" =
      "See actionable instruction for required documents" := by
  constructor
  · exact (extract_relevant_documents_universal_mapping (fun _ => [])
      "Upload bank statements" "All Docs" (by decide) (by decide)).1
      (by decide)
  · exact (extract_relevant_documents_universal_mapping (fun _ => [])
      "Provide signed documents" "All Docs" (by decide) (by decide)).2
      (by decide)

/-! ### Shared lemmas about the Step 2 combination and collation -/

theorem hardFilterCombine_eq_filter_of_exists (A B : List Step2.Req)
    (h : ∃ r ∈ B, Step2.reqKey r ∈ A.map Step2.reqKey) :
    Step2.hardFilterCombine A B =
      B.filter (fun r =>
        (A.map Step2.reqKey).contains (Step2.reqKey r)) := by
  obtain ⟨r0, hr0B, hr0A⟩ := h
  have hmem : r0 ∈ B.filter (fun r =>
      (A.map Step2.reqKey).contains (Step2.reqKey r)) :=
    List.mem_filter.mpr ⟨hr0B, by simpa using hr0A⟩
  have hne : (B.filter (fun r =>
      (A.map Step2.reqKey).contains (Step2.reqKey r))).isEmpty = false :=
    List.isEmpty_eq_false.mpr (List.ne_nil_of_mem hmem)
  unfold Step2.hardFilterCombine
  simp only [hne, Bool.false_eq_true, if_false]

theorem hardFilterCombine_eq_left_of_forall (A B : List Step2.Req)
    (h : ∀ r ∈ B, Step2.reqKey r ∉ A.map Step2.reqKey) :
    Step2.hardFilterCombine A B = A := by
  have hnil : B.filter (fun r =>
      (A.map Step2.reqKey).contains (Step2.reqKey r)) = [] :=
    List.filter_eq_nil_iff.mpr (fun r hr => by simpa using h r hr)
  unfold Step2.hardFilterCombine
  simp only [hnil, List.isEmpty_nil, if_true]

theorem collate_foldl_mem :
    ∀ (l : List Step2.Req) (acc : List Step2.Req × List Step2.ReqKey),
      ∀ r ∈ (l.foldl Step2.collateStep acc).1, r ∈ acc.1 ∨ r ∈ l := by
  intro l
  induction l with
  | nil => intro acc r hr; exact Or.inl hr
  | cons a l ih =>
    intro acc r hr
    rcases ih (Step2.collateStep acc a) r hr with h | h
    · revert h
      unfold Step2.collateStep
      split
      · intro h; exact Or.inl h
      · intro h
        rcases List.mem_append.mp h with h1 | h1
        · exact Or.inl h1
        · simp only [List.mem_singleton] at h1
          subst h1
          exact Or.inr (List.mem_cons_self _ _)
    · exact Or.inr (List.mem_cons_of_mem _ h)

theorem collate_semantic_subset (l : List Step2.Req) :
    ∀ r ∈ Step2.collate_semantic l, r ∈ l := by
  intro r hr
  unfold Step2.collate_semantic at hr
  rcases collate_foldl_mem l ([], []) r hr with h | h
  · simp at h
  · exact h

theorem semantic_search_programs_none (rows : List Step2.SemanticRow) :
    ∀ r ∈ Step2.get_requirements_by_semantic_search rows,
      r.programs = none := by
  intro r hr
  have hmem := collate_semantic_subset _ r hr
  obtain ⟨row, _, hrow⟩ := List.mem_map.mp hmem
  rw [← hrow]
  rfl

theorem compartment_programs_present (lp : Option String)
    (rows : List Step2.CompartmentRow) :
    ∀ r ∈ Step2.get_requirements_by_compartment lp rows,
      r.programs ≠ none := by
  intro r hr
  unfold Step2.get_requirements_by_compartment at hr
  obtain ⟨row, _, hrow⟩ := List.mem_map.mp hr
  rw [← hrow]
  simp

/-! ### C1: `hard_filter` intersection with Path A fallback -/

/-- C1. For every pair of retrieval results (Path A, Path B), the
combination step of `hard_filter` returns the intersection of the two sets
by identity when it is non-empty — every returned record carries a key
occurring on both paths, and every common key occurs among the returned
records, so the returned set is a subset of Path A by identity — and when
the intersection is empty it returns exactly the full Path A list. -/
theorem hard_filter_intersection_and_fallback (A B : List Step2.Req) :
    ((∃ r ∈ B, Step2.reqKey r ∈ A.map Step2.reqKey) →
      (∀ r ∈ Step2.hardFilterCombine A B,
        Step2.reqKey r ∈ A.map Step2.reqKey ∧
        Step2.reqKey r ∈ B.map Step2.reqKey) ∧
      (∀ k, k ∈ A.map Step2.reqKey → k ∈ B.map Step2.reqKey →
        k ∈ (Step2.hardFilterCombine A B).map Step2.reqKey)) ∧
    ((¬ ∃ r ∈ B, Step2.reqKey r ∈ A.map Step2.reqKey) →
      Step2.hardFilterCombine A B = A) := by
  constructor
  · intro h
    have hcomb := hardFilterCombine_eq_filter_of_exists A B h
    constructor
    · intro r hr
      rw [hcomb, List.mem_filter] at hr
      exact ⟨by simpa using hr.2, List.mem_map_of_mem _ hr.1⟩
    · intro k hkA hkB
      obtain ⟨b, hbB, hbk⟩ := List.mem_map.mp hkB
      rw [hcomb]
      subst hbk
      exact List.mem_map_of_mem _
        (List.mem_filter.mpr ⟨hbB, by simpa using hkA⟩)
  · intro h
    exact hardFilterCombine_eq_left_of_forall A B
      (fun r hr hk => h ⟨r, hr, hk⟩)

/-- Witness for C1: with a common id `r1`, the combination keeps exactly the
common records; with disjoint ids `r1`/`r2`, it falls back to Path A. -/
theorem hard_filter_intersection_and_fallback_witness :
    ((∀ r ∈ Step2.hardFilterCombine [c1ReqA] [c1ReqB],
        Step2.reqKey r ∈ [c1ReqA].map Step2.reqKey ∧
        Step2.reqKey r ∈ [c1ReqB].map Step2.reqKey) ∧
      (∀ k, k ∈ [c1ReqA].map Step2.reqKey →
        k ∈ [c1ReqB].map Step2.reqKey →
        k ∈ (Step2.hardFilterCombine [c1ReqA] [c1ReqB]).map
          Step2.reqKey)) ∧
    Step2.hardFilterCombine [c1ReqA] [c1ReqC] = [c1ReqA] :=
  ⟨(hard_filter_intersection_and_fallback [c1ReqA] [c1ReqB]).1
      (by decide),
   (hard_filter_intersection_and_fallback [c1ReqA] [c1ReqC]).2
      (by decide)⟩

/-! ### C10: provenance of the records `hard_filter` returns -/

/-- C10. When the two retrieval paths intersect, `hard_filter` returns
exactly the Path B (semantic-search) record dicts in Path B insertion order
— the filtered Path B list — and none of them carries a `_programs`
annotation; in the empty-intersection fallback the Path A dicts are
returned, each of which carries a `_programs` annotation. -/
theorem hard_filter_provenance (lp : Option String)
    (rowsA : List Step2.CompartmentRow)
    (rowsB : List Step2.SemanticRow) :
    ((∃ r ∈ Step2.get_requirements_by_semantic_search rowsB,
        Step2.reqKey r ∈
          (Step2.get_requirements_by_compartment lp rowsA).map
            Step2.reqKey) →
      Step2.hard_filter lp rowsA rowsB =
        (Step2.get_requirements_by_semantic_search rowsB).filter
          (fun r =>
            ((Step2.get_requirements_by_compartment lp rowsA).map
              Step2.reqKey).contains (Step2.reqKey r)) ∧
      ∀ r ∈ Step2.hard_filter lp rowsA rowsB, r.programs = none) ∧
    ((∀ r ∈ Step2.get_requirements_by_semantic_search rowsB,
        Step2.reqKey r ∉
          (Step2.get_requirements_by_compartment lp rowsA).map
            Step2.reqKey) →
      Step2.hard_filter lp rowsA rowsB =
        Step2.get_requirements_by_compartment lp rowsA ∧
      ∀ r ∈ Step2.hard_filter lp rowsA rowsB, r.programs ≠ none) := by
  constructor
  · intro h
    have hcomb := hardFilterCombine_eq_filter_of_exists
      (Step2.get_requirements_by_compartment lp rowsA)
      (Step2.get_requirements_by_semantic_search rowsB) h
    refine ⟨hcomb, ?_⟩
    intro r hr
    unfold Step2.hard_filter at hr
    rw [hcomb] at hr
    exact semantic_search_programs_none rowsB r (List.mem_filter.mp hr).1
  · intro h
    have hcomb := hardFilterCombine_eq_left_of_forall
      (Step2.get_requirements_by_compartment lp rowsA)
      (Step2.get_requirements_by_semantic_search rowsB) h
    refine ⟨hcomb, ?_⟩
    intro r hr
    unfold Step2.hard_filter at hr
    rw [hcomb] at hr
    exact compartment_programs_present lp rowsA r hr

/-- Witness for C10: with a shared node id `r1` the returned record is the
Path B dict (no `_programs`); with disjoint ids the Path A dict with its
`_programs` annotation comes back. -/
theorem hard_filter_provenance_witness :
    (Step2.hard_filter none [c10RowA] [c10RowB] =
        (Step2.get_requirements_by_semantic_search [c10RowB]).filter
          (fun r =>
            ((Step2.get_requirements_by_compartment none [c10RowA]).map
              Step2.reqKey).contains (Step2.reqKey r)) ∧
      ∀ r ∈ Step2.hard_filter none [c10RowA] [c10RowB],
        r.programs = none) ∧
    (Step2.hard_filter none [c10RowA] [c10RowC] =
        Step2.get_requirements_by_compartment none [c10RowA] ∧
      ∀ r ∈ Step2.hard_filter none [c10RowA] [c10RowC],
        r.programs ≠ none) :=
  ⟨(hard_filter_provenance none [c10RowA] [c10RowB]).1 (by decide),
   (hard_filter_provenance none [c10RowA] [c10RowC]).2 (by decide)⟩

/-! ### C8: the embedding cache stays bounded -/

theorem dictInsert_length_le {α : Type} (c : List (String × α))
    (k : String) (v : α) :
    (dictInsert c k v).length ≤ c.length + 1 := by
  unfold dictInsert
  split
  · simp only [List.length_map]
    omega
  · simp only [List.length_append, List.length_cons, List.length_nil]
    omega

theorem cacheStore_length_le (c : Step2.EmbCache) (k : String)
    (v : List ℚ) (h : c.length ≤ 1001) :
    (Step2.cacheStore c k v).length ≤ 1001 := by
  simp only [Step2.cacheStore]
  split
  · have := dictInsert_length_le ([] : Step2.EmbCache) k v
    simp only [List.length_nil] at this
    omega
  · rename_i hle
    have := dictInsert_length_le c k v
    omega

theorem get_entity_embedding_cache_length
    (api : String → Option (List ℚ)) (c : Step2.EmbCache)
    (entity : String) (use_cache : Bool) (model : String)
    (h : c.length ≤ 1001) :
    ((Step2.get_entity_embedding api c entity use_cache model).2).length
      ≤ 1001 := by
  simp only [Step2.get_entity_embedding]
  split
  · exact h
  · split
    · exact h
    · split
      · exact cacheStore_length_le _ _ _ h
      · exact h

theorem foldl_preserves {α β : Type} (P : β → Prop) (f : β → α → β)
    (hf : ∀ b a, P b → P (f b a)) :
    ∀ (l : List α) (b : β), P b → P (l.foldl f b) := by
  intro l
  induction l with
  | nil => intro b hb; exact hb
  | cons a l ih => intro b hb; exact ih _ (hf b a hb)

theorem get_entity_embeddings_batch_cache_length
    (batchApi : List String → Option (List (List ℚ)))
    (api : String → Option (List ℚ)) (c : Step2.EmbCache)
    (entities : List String) (model : String) (h : c.length ≤ 1001) :
    ((Step2.get_entity_embeddings_batch batchApi api c entities
        model).2).length ≤ 1001 := by
  simp only [Step2.get_entity_embeddings_batch]
  split
  · exact h
  · split
    · exact h
    · split
      · refine (foldl_preserves
          (fun acc : List (String × List ℚ) × Step2.EmbCache =>
            acc.2.length ≤ 1001) _ ?_ _ _ h)
        intro b a hb
        exact cacheStore_length_le _ _ _ hb
      · refine (foldl_preserves
          (fun acc : List (String × List ℚ) × Step2.EmbCache =>
            acc.2.length ≤ 1001) _ ?_ _ _ h)
        intro b a hb
        have hg := get_entity_embedding_cache_length api b.2 a true model hb
        rcases hge : Step2.get_entity_embedding api b.2 a true model
          with ⟨o, c2⟩
        rw [hge] at hg
        cases o <;> simpa using hg

/-- C8. The cache write path of both `get_entity_embedding` and the batch
function clears the whole cache before inserting whenever its size exceeds
the fixed capacity of 1000 at insertion time, and consequently the cache
size stays bounded (by 1001) across any sequence of single or batch calls
from any state within the bound. -/
theorem embedding_cache_capacity_bounded :
    (∀ (cache : Step2.EmbCache) (k : String) (v : List ℚ),
      1000 < cache.length → Step2.cacheStore cache k v = [(k, v)]) ∧
    (∀ (ops : List Step2.CacheOp) (cache : Step2.EmbCache),
      cache.length ≤ 1001 →
      (Step2.runCacheOps cache ops).length ≤ 1001) := by
  constructor
  · intro cache k v h
    unfold Step2.cacheStore
    rw [if_pos h]
    rfl
  · intro ops cache h
    unfold Step2.runCacheOps
    refine foldl_preserves (fun c : Step2.EmbCache => c.length ≤ 1001)
      Step2.applyCacheOp ?_ ops cache h
    intro c op hc
    cases op with
    | single api e uc m =>
      exact get_entity_embedding_cache_length api c e uc m hc
    | batch bApi api es m =>
      exact get_entity_embeddings_batch_cache_length bApi api c es m hc

/-- Witness for C8: a cache of 1001 entries is flushed whole by the next
store, and a concrete call sequence from the empty cache stays within the
bound. -/
theorem embedding_cache_capacity_bounded_witness :
    Step2.cacheStore (List.replicate 1001 ("k", ([] : List ℚ))) "a" []
      = [("a", [])] ∧
    (Step2.runCacheOps []
      [Step2.CacheOp.single (fun _ => some [1]) "Appraisal Report" true
        "text-embedding-3-large",
       Step2.CacheOp.batch (fun _ => none) (fun _ => some [1])
        ["Property Value"] "text-embedding-3-large"]).length ≤ 1001 :=
  ⟨embedding_cache_capacity_bounded.1 _ _ _
      (by rw [List.length_replicate]; omega),
   embedding_cache_capacity_bounded.2 _ _ (by norm_num)⟩

/-! ### C4: similarity scores stay in [0, 1] -/

theorem cosine_similarity_nonneg (v1 v2 : List ℝ) :
    0 ≤ Step3.cosine_similarity v1 v2 := by
  simp only [Step3.cosine_similarity]
  split
  · exact le_refl 0
  · exact le_max_left 0 _

theorem cosine_similarity_le_one (v1 v2 : List ℝ) :
    Step3.cosine_similarity v1 v2 ≤ 1 := by
  simp only [Step3.cosine_similarity]
  split
  · exact zero_le_one
  · exact max_le zero_le_one (min_le_left 1 _)

theorem le_foldl_max_self (xs : List ℝ) : ∀ x : ℝ, x ≤ xs.foldl max x := by
  induction xs with
  | nil => intro x; simp
  | cons a xs ih =>
    intro x
    exact le_trans (le_max_left x a) (ih (max x a))

theorem foldl_max_le_of_le (xs : List ℝ) :
    ∀ x c : ℝ, x ≤ c → (∀ y ∈ xs, y ≤ c) → xs.foldl max x ≤ c := by
  induction xs with
  | nil => intro x c hx _; simpa using hx
  | cons a xs ih =>
    intro x c hx hall
    exact ih (max x a) c (max_le hx (hall a (List.mem_cons_self a xs)))
      (fun y hy => hall y (List.mem_cons_of_mem a hy))

theorem pyMaxOrZero_bounds (l : List ℝ) (h : ∀ v ∈ l, 0 ≤ v ∧ v ≤ 1) :
    0 ≤ Step3.pyMaxOrZero l ∧ Step3.pyMaxOrZero l ≤ 1 := by
  rcases l with _ | ⟨x, xs⟩
  · exact ⟨le_refl 0, zero_le_one⟩
  · constructor
    · exact le_trans (h x (List.mem_cons_self x xs)).1 (le_foldl_max_self xs x)
    · exact foldl_max_le_of_le xs x 1 (h x (List.mem_cons_self x xs)).2
        (fun y hy => (h y (List.mem_cons_of_mem x hy)).2)

theorem pyAvgOrZero_bounds (l : List ℝ) (h : ∀ v ∈ l, 0 ≤ v ∧ v ≤ 1) :
    0 ≤ Step3.pyAvgOrZero l ∧ Step3.pyAvgOrZero l ≤ 1 := by
  unfold Step3.pyAvgOrZero
  split
  · exact ⟨le_refl 0, zero_le_one⟩
  · rename_i hne
    have hnil : l ≠ [] := by simpa using hne
    have hlen : 0 < (l.length : ℝ) := by
      exact_mod_cast List.length_pos.mpr hnil
    constructor
    · exact div_nonneg (List.sum_nonneg (fun v hv => (h v hv).1))
        (le_of_lt hlen)
    · rw [div_le_one hlen]
      have := List.sum_le_card_nsmul l 1 (fun v hv => (h v hv).2)
      simpa using this

/-- C4. For every requirement record, entity-embedding list and reducer
string, the computed similarity lies in [0, 1] — the clamp inside
`cosine_similarity` covers negative raw cosines and the zero-norm guard
covers degenerate vectors — and a record with no stored `embedding`
property scores exactly 0. -/
theorem calculate_requirement_similarity_bounds (r : Step3.Req)
    (entity_embeddings : List (List ℝ)) (method : String) :
    0 ≤ Step3.calculate_requirement_similarity r entity_embeddings method ∧
    Step3.calculate_requirement_similarity r entity_embeddings method ≤ 1 ∧
    (r.embedding = none →
      Step3.calculate_requirement_similarity r entity_embeddings method
        = 0) := by
  rcases hre : r.embedding with _ | emb
  · refine ⟨?_, ?_, fun _ => ?_⟩ <;>
      simp [Step3.calculate_requirement_similarity, hre]
  · have hb : ∀ v ∈ entity_embeddings.map
        (fun e => Step3.cosine_similarity emb e), 0 ≤ v ∧ v ≤ 1 := by
      intro v hv
      obtain ⟨e, _, hev⟩ := List.mem_map.mp hv
      exact hev ▸ ⟨cosine_similarity_nonneg emb e,
        cosine_similarity_le_one emb e⟩
    simp only [Step3.calculate_requirement_similarity, hre]
    split
    · exact ⟨le_refl 0, zero_le_one, fun hnone => Option.noConfusion hnone⟩
    · split
      · exact ⟨(pyMaxOrZero_bounds _ hb).1, (pyMaxOrZero_bounds _ hb).2,
          fun hnone => Option.noConfusion hnone⟩
      · split
        · exact ⟨(pyAvgOrZero_bounds _ hb).1, (pyAvgOrZero_bounds _ hb).2,
            fun hnone => Option.noConfusion hnone⟩
        · exact ⟨(pyMaxOrZero_bounds _ hb).1, (pyMaxOrZero_bounds _ hb).2,
            fun hnone => Option.noConfusion hnone⟩

/-- Witness for C4: a record with no stored embedding scores exactly 0. -/
theorem calculate_requirement_similarity_bounds_witness :
    Step3.calculate_requirement_similarity c4Req [[1]] "max" = 0 :=
  (calculate_requirement_similarity_bounds c4Req [[1]] "max").2.2 rfl

/-! ### C9: ranking with no entities returns the input unchanged -/

/-- C9. Calling the ranking with an empty entities list yields no entity
embeddings, so the input list is returned unchanged: no score is written,
no sorting or truncation happens, and no connected-node enrichment runs
even when requested. -/
theorem rank_with_no_entities_returns_input
    (embed : String → Option (List ℝ))
    (getConn : Option String → Option Step3.ConnectedNodes)
    (requirements : List Step3.Req) (top_n : Option Nat) (method : String)
    (include_connected_nodes : Bool) (h : requirements ≠ []) :
    Step3.rank_requirements_by_similarity embed getConn requirements []
      top_n method include_connected_nodes = requirements := by
  have h1 : requirements.isEmpty = false := by simpa using h
  simp [Step3.rank_requirements_by_similarity, h1]

/-- Witness for C9 at a concrete one-record list with enrichment
requested. -/
theorem rank_with_no_entities_returns_input_witness :
    Step3.rank_requirements_by_similarity (fun _ => none) (fun _ => none)
      [c9Req] [] none "max" true = [c9Req] :=
  rank_with_no_entities_returns_input _ _ _ _ _ _ (by simp)

/-! ### C7: ranking without enrichment is idempotent -/

theorem scoreOne_idem (E : List (List ℝ)) (m : String) (r : Step3.Req) :
    Step3.scoreOne E m (Step3.scoreOne E m r) = Step3.scoreOne E m r := rfl

theorem truncateTopN_none (l : List Step3.Req) :
    Step3.truncateTopN none l = l := rfl

theorem truncateTopN_some (n : Nat) (l : List Step3.Req) :
    Step3.truncateTopN (some n) l = if n = 0 then l else l.take n := rfl

theorem truncateTopN_subset (t : Option Nat) (l : List Step3.Req) :
    ∀ r ∈ Step3.truncateTopN t l, r ∈ l := by
  intro r hr
  cases t with
  | none => rw [truncateTopN_none] at hr; exact hr
  | some n =>
    rw [truncateTopN_some] at hr
    by_cases hn : n = 0
    · rw [if_pos hn] at hr; exact hr
    · rw [if_neg hn] at hr; exact List.take_subset n l hr

theorem truncateTopN_pairwise (le : Step3.Req → Step3.Req → Bool)
    (t : Option Nat) (l : List Step3.Req)
    (h : l.Pairwise (fun a b => le a b = true)) :
    (Step3.truncateTopN t l).Pairwise (fun a b => le a b = true) := by
  cases t with
  | none => rw [truncateTopN_none]; exact h
  | some n =>
    rw [truncateTopN_some]
    by_cases hn : n = 0
    · rw [if_pos hn]; exact h
    · rw [if_neg hn]; exact List.Pairwise.sublist (List.take_sublist n l) h

theorem truncateTopN_idem (t : Option Nat) (l : List Step3.Req) :
    Step3.truncateTopN t (Step3.truncateTopN t l)
      = Step3.truncateTopN t l := by
  cases t with
  | none => rw [truncateTopN_none, truncateTopN_none]
  | some n =>
    rw [truncateTopN_some, truncateTopN_some]
    by_cases hn : n = 0
    · simp [hn]
    · simp only [hn, if_false]
      rw [List.take_take, Nat.min_self]

theorem truncateTopN_ne_nil (t : Option Nat) (l : List Step3.Req)
    (h : l ≠ []) : Step3.truncateTopN t l ≠ [] := by
  cases t with
  | none => rw [truncateTopN_none]; exact h
  | some n =>
    rw [truncateTopN_some]
    by_cases hn : n = 0
    · simpa [hn] using h
    · simp only [hn, if_false]
      intro hcon
      have hlen := congrArg List.length hcon
      simp only [List.length_take, List.length_nil] at hlen
      have h1 : 0 < n := Nat.pos_of_ne_zero hn
      have h2 : 0 < l.length := List.length_pos.mpr h
      omega

theorem sortLe_trans (a b c : Step3.Req)
    (h1 : decide (Step3.sortKey b ≤ Step3.sortKey a) = true)
    (h2 : decide (Step3.sortKey c ≤ Step3.sortKey b) = true) :
    decide (Step3.sortKey c ≤ Step3.sortKey a) = true := by
  simp only [decide_eq_true_eq] at h1 h2 ⊢
  exact le_trans h2 h1

theorem sortLe_total (a b : Step3.Req) :
    (decide (Step3.sortKey b ≤ Step3.sortKey a) ||
     decide (Step3.sortKey a ≤ Step3.sortKey b)) = true := by
  rcases le_total (Step3.sortKey b) (Step3.sortKey a) with h | h <;> simp [h]

theorem sortByScoreDesc_pairwise (l : List Step3.Req) :
    (Step3.sortByScoreDesc l).Pairwise
      (fun a b => decide (Step3.sortKey b ≤ Step3.sortKey a) = true) := by
  unfold Step3.sortByScoreDesc
  exact List.sorted_mergeSort sortLe_trans sortLe_total l

theorem sortByScoreDesc_of_pairwise (l : List Step3.Req)
    (h : l.Pairwise
      (fun a b => decide (Step3.sortKey b ≤ Step3.sortKey a) = true)) :
    Step3.sortByScoreDesc l = l := by
  unfold Step3.sortByScoreDesc
  exact List.mergeSort_of_sorted h

theorem scoreRequirements_eq_self (E : List (List ℝ)) (m : String)
    (l : List Step3.Req)
    (h : ∀ r ∈ l, Step3.scoreOne E m r = r) :
    Step3.scoreRequirements E m l = l := by
  unfold Step3.scoreRequirements
  rw [List.map_congr_left h, List.map_id']

/-- C7. Ranking without enrichment is idempotent: applying the ranking to
its own output with the same oracles, entities, reducer and `top_n` yields
the same records in the same order — scores are recomputed to the same
deterministic values and the stable descending sort leaves the already
sorted list untouched. -/
theorem rank_requirements_idempotent
    (embed : String → Option (List ℝ))
    (getConn : Option String → Option Step3.ConnectedNodes)
    (requirements : List Step3.Req) (entities : List String)
    (top_n : Option Nat) (method : String) :
    Step3.rank_requirements_by_similarity embed getConn
      (Step3.rank_requirements_by_similarity embed getConn requirements
        entities top_n method false) entities top_n method false =
    Step3.rank_requirements_by_similarity embed getConn requirements
      entities top_n method false := by
  cases hreq : requirements.isEmpty with
  | true =>
    have h1 : Step3.rank_requirements_by_similarity embed getConn
        requirements entities top_n method false = [] := by
      simp [Step3.rank_requirements_by_similarity, hreq]
    rw [h1]
    simp [Step3.rank_requirements_by_similarity]
  | false =>
    cases hemb : (entities.filterMap embed).isEmpty with
    | true =>
      have h1 : Step3.rank_requirements_by_similarity embed getConn
          requirements entities top_n method false = requirements := by
        simp [Step3.rank_requirements_by_similarity, hreq, hemb]
      rw [h1]
      exact h1
    | false =>
      have h1 : Step3.rank_requirements_by_similarity embed getConn
          requirements entities top_n method false =
          Step3.truncateTopN top_n (Step3.sortByScoreDesc
            (Step3.scoreRequirements (entities.filterMap embed) method
              requirements)) := by
        simp [Step3.rank_requirements_by_similarity, hreq, hemb]
      have hinner_mem : ∀ r ∈ Step3.truncateTopN top_n
          (Step3.sortByScoreDesc
            (Step3.scoreRequirements (entities.filterMap embed) method
              requirements)),
          r ∈ Step3.scoreRequirements (entities.filterMap embed) method
            requirements := by
        intro r hr
        have h2 := truncateTopN_subset top_n _ r hr
        unfold Step3.sortByScoreDesc at h2
        exact List.mem_mergeSort.mp h2
      have heach : ∀ r ∈ Step3.truncateTopN top_n
          (Step3.sortByScoreDesc
            (Step3.scoreRequirements (entities.filterMap embed) method
              requirements)),
          Step3.scoreOne (entities.filterMap embed) method r = r := by
        intro r hr
        have hx := hinner_mem r hr
        unfold Step3.scoreRequirements at hx
        obtain ⟨x, _, hxr⟩ := List.mem_map.mp hx
        rw [← hxr]
        exact scoreOne_idem _ _ x
      have hscore := scoreRequirements_eq_self (entities.filterMap embed)
        method (Step3.truncateTopN top_n (Step3.sortByScoreDesc
          (Step3.scoreRequirements (entities.filterMap embed) method
            requirements))) heach
      have hpair := truncateTopN_pairwise
        (fun a b => decide (Step3.sortKey b ≤ Step3.sortKey a)) top_n _
        (sortByScoreDesc_pairwise
          (Step3.scoreRequirements (entities.filterMap embed) method
            requirements))
      have hsort := sortByScoreDesc_of_pairwise _ hpair
      have htrunc := truncateTopN_idem top_n (Step3.sortByScoreDesc
        (Step3.scoreRequirements (entities.filterMap embed) method
          requirements))
      have hne : requirements ≠ [] := by simpa using hreq
      have hscore_ne : Step3.scoreRequirements (entities.filterMap embed)
          method requirements ≠ [] := by
        unfold Step3.scoreRequirements
        simpa using hne
      have hsort_ne : Step3.sortByScoreDesc
          (Step3.scoreRequirements (entities.filterMap embed) method
            requirements) ≠ [] := by
        unfold Step3.sortByScoreDesc
        intro hcon
        have hlen := congrArg List.length hcon
        simp only [List.length_mergeSort, List.length_nil] at hlen
        exact hscore_ne (List.length_eq_zero.mp hlen)
      have hinner_ne : (Step3.truncateTopN top_n (Step3.sortByScoreDesc
          (Step3.scoreRequirements (entities.filterMap embed) method
            requirements))).isEmpty = false := by
        rw [List.isEmpty_eq_false]
        exact truncateTopN_ne_nil top_n _ hsort_ne
      rw [h1]
      simp only [Step3.rank_requirements_by_similarity, hinner_ne, hemb,
        Bool.false_eq_true, if_false]
      rw [hscore, hsort, htrunc]

end PredictedConditions
